import Mathlib

/-!
Shallow embedding of the `faststatus` resource package (Go).

Source files embedded here:
  * `resource/status.go`  — the `Status` type (uint8 enum 0=Free, 1=Busy,
    2=Occupied) with its renderers and JSON codec;
  * `resource/resource.go` — the `Resource` struct with `String`,
    `MarshalJSON` and `UnmarshalJSON`.

Modelling conventions:
  * Go `uint8` / `uint64` are modelled as `Nat`, with explicit bounds
    (`< 256`, `< 2 ^ 64`) as hypotheses where the width matters.
  * The JSON layer is modelled at the level of a structured value tree
    (`Jval`) rather than raw bytes: `encoding/json` syntax handling is Go
    standard-library code, not code of this repository.  Struct decoding
    follows `encoding/json` semantics: keys are matched against field names
    ASCII-case-insensitively, a type mismatch on a plain field records the
    first error but decoding continues, and an error returned by a field's
    `UnmarshalJSON` method aborts decoding immediately.
  * `time.Time` is modelled as a UTC calendar record `Time`.  Its
    standard-library JSON encoding (an RFC3339 string) is injective, and the
    repository never inspects that string, so it is modelled as the opaque
    leaf `Jval.tim`.
-/

/-- Model of Go `time.Time` restricted to UTC (the only case the repository
exercises): calendar fields plus nanoseconds.  The Go zero time is
January 1, year 1, 00:00:00 UTC. -/
structure Time where
  year : Nat
  month : Nat
  day : Nat
  hour : Nat
  minute : Nat
  second : Nat
  nanos : Nat
deriving DecidableEq

/-- The zero `time.Time`: January 1 of year 1, midnight UTC. -/
def zeroTime : Time := ⟨1, 1, 1, 0, 0, 0, 0⟩

/-- The error values the embedded code can produce:
`outOfRange` is `ErrOutOfRange` from status.go; `jsonError` is any error
produced by `encoding/json` itself (type mismatch / unrepresentable number);
`parseSyntax` and `parseRange` are the two `strconv.NumError` kinds from
`strconv.ParseUint`. -/
inductive Err where
  | outOfRange
  | jsonError
  | parseSyntax
  | parseRange
deriving DecidableEq

/-- The spec's `ParseError` family: an error coming from `strconv.ParseUint`
(a `*strconv.NumError`, either syntax or range). -/
def Err.isParse : Err → Bool
  | .parseSyntax => true
  | .parseRange => true
  | _ => false

/-- Structured JSON value tree.  `tim t` stands for the RFC3339 string the
standard library emits for the `time.Time` `t` (injective, never inspected by
the repository's code). -/
inductive Jval where
  | str : String → Jval
  | num : Int → Jval
  | tim : Time → Jval
  | obj : List (String × Jval) → Jval

deriving instance DecidableEq for Except

/-- `type Status uint8`: bit patterns 0..255, of which 0, 1, 2 are in range. -/
abbrev Status := Nat

/-- `Free Status = iota` (0). -/
def Free : Status := 0

/-- `Busy` (1). -/
def Busy : Status := 1

/-- `Occupied` (2). -/
def Occupied : Status := 2

/-- `func (s Status) inRange() bool { return s <= Occupied }`. -/
def Status.inRange (s : Status) : Prop := s ≤ Occupied

instance (s : Status) : Decidable (Status.inRange s) := Nat.decLe s Occupied

/-- `func (s Status) forceRange() Status`: clamp an out-of-range value to
`Free`. -/
def Status.forceRange (s : Status) : Status :=
  if Status.inRange s then s else Free

/-- `func (s Status) Pretty() string`: the human-readable name, switching on
`s.forceRange()` with cases `Busy`, `Occupied`, `Free` and an (unreachable)
default returning the empty string. -/
def Status.Pretty (s : Status) : String :=
  match Status.forceRange s with
  | 1 => "Busy"
  | 2 => "Occupied"
  | 0 => "Free"
  | _ => ""

/-- `func (s Status) String() string`: the compact numeric text,
`strconv.FormatUint(uint64(s.forceRange()), 10)`. -/
def Status.String (s : Status) : String :=
  toString (Status.forceRange s)

/-- `func (s Status) MarshalJSON() ([]byte, error)`: out-of-range values fail
with `ErrOutOfRange`; in-range values marshal as the bare number. -/
def Status.MarshalJSON (s : Status) : Except Err Jval :=
  if Status.inRange s then .ok (.num (s : Int)) else .error .outOfRange

/-- `func (s *Status) UnmarshalJSON(raw []byte) error`: `raw` is unmarshalled
into a fresh `uint8`; a value that is not an integer in 0..255 is a JSON
error that leaves the receiver unchanged.  Otherwise the receiver is
assigned; if the value is out of range the receiver is then reset to `Free`
and `ErrOutOfRange` is returned.  The result pairs the new receiver value
with the returned error. -/
def Status.UnmarshalJSON (s : Status) (j : Jval) : Status × Option Err :=
  match j with
  | .num n =>
      if 0 ≤ n ∧ n < 256 then
        if n.toNat ≤ 2 then (n.toNat, none) else (Free, some .outOfRange)
      else (s, some .jsonError)
  | _ => (s, some .jsonError)

/-- Upper-case hex digit for a value below 16 (`0`–`9`, `A`–`F`). -/
def hexDigit (n : Nat) : Char :=
  if n < 10 then Char.ofNat (48 + n) else Char.ofNat (55 + n)

/-- Fuel-driven digit loop for upper-case hexadecimal rendering: prepends the
digits of `n` (most significant first) to `acc`.  `n + 1` units of fuel always
suffice. -/
def hexDigitsAux : Nat → Nat → List Char → List Char
  | 0, _, acc => acc
  | fuel + 1, n, acc =>
      if n < 16 then hexDigit n :: acc
      else hexDigitsAux fuel (n / 16) (hexDigit (n % 16) :: acc)

/-- Upper-case hexadecimal digit list of `n`, most significant first, with no
padding ( `[ '0' ]` for 0). -/
def hexDigits (n : Nat) : List Char := hexDigitsAux (n + 1) n []

/-- Go `fmt.Sprintf("%X", n)`: minimal-width upper-case hexadecimal. -/
def hexUpper (n : Nat) : String := String.mk (hexDigits n)

/-- Go `fmt.Sprintf("%016X", n)`: upper-case hexadecimal, zero-padded on the
left to at least 16 digits. -/
def hexUpper16 (n : Nat) : String :=
  String.mk (List.replicate (16 - (hexDigits n).length) '0' ++ hexDigits n)

/-- Decimal rendering of `n` zero-padded on the left to width `w` (Go's
`appendInt` used by `time.Format`). -/
def decPad (w n : Nat) : String :=
  String.mk (List.replicate (w - (Nat.toDigits 10 n).length) '0' ++ Nat.toDigits 10 n)

/-- `t.Format(time.RFC3339)` for a UTC time: layout
`2006-01-02T15:04:05Z07:00`, the offset rendering as `Z` at UTC; the
layout carries no fractional seconds. -/
def fmtRFC3339 (t : Time) : String :=
  decPad 4 t.year ++ "-" ++ decPad 2 t.month ++ "-" ++ decPad 2 t.day ++ "T" ++
    decPad 2 t.hour ++ ":" ++ decPad 2 t.minute ++ ":" ++ decPad 2 t.second ++ "Z"

/-- Value of an ASCII character as a hexadecimal digit, as recognised by
`strconv.ParseUint` with base 16 (`0`–`9`, `a`–`f`, `A`–`F`). -/
def hexVal (c : Char) : Option Nat :=
  if 48 ≤ c.toNat ∧ c.toNat ≤ 57 then some (c.toNat - 48)
  else if 97 ≤ c.toNat ∧ c.toNat ≤ 102 then some (c.toNat - 87)
  else if 65 ≤ c.toNat ∧ c.toNat ≤ 70 then some (c.toNat - 55)
  else none

/-- Digit-accumulation loop of `strconv.ParseUint(s, 16, 64)`: a character
that is not a hex digit is a syntax error, exceeding `2^64 - 1` is a range
error. -/
def parseUintGo : List Char → Nat → Except Err Nat
  | [], n => .ok n
  | c :: cs, n =>
      match hexVal c with
      | none => .error .parseSyntax
      | some d =>
          if n * 16 + d < 2 ^ 64 then parseUintGo cs (n * 16 + d)
          else .error .parseRange

/-- `strconv.ParseUint(s, 16, 64)`: empty input is a syntax error. -/
def ParseUint (s : String) : Except Err Nat :=
  match s.data with
  | [] => .error .parseSyntax
  | c :: cs => parseUintGo (c :: cs) 0

/-- The `Resource` struct: `Id uint64`, `FriendlyName string`,
`Status Status`, `Since time.Time`. -/
structure Resource where
  id : Nat
  friendlyName : String
  status : Status
  since : Time
deriving DecidableEq

/-- `func (r Resource) String() string`:
`fmt.Sprintf("%s %v %016X %s", r.Since.Format(time.RFC3339), r.Status, r.Id,
r.FriendlyName)`; the `%v` verb on a `Status` uses its `String` method. -/
def Resource.String (r : Resource) : String :=
  fmtRFC3339 r.since ++ " " ++ Status.String r.status ++ " " ++
    hexUpper16 r.id ++ " " ++ r.friendlyName

/-- `func (r Resource) MarshalJSON() ([]byte, error)`: marshals the struct
`{Id string "id"; FriendlyName string "friendlyName"; Status Status
"status"; Since time.Time "since"}` whose `Id` is `fmt.Sprintf("%X", r.Id)`.
The `Status` field marshals through `Status.MarshalJSON`; its failure aborts
the whole marshal with no output. -/
def Resource.MarshalJSON (r : Resource) : Except Err Jval :=
  match Status.MarshalJSON r.status with
  | .error e => .error e
  | .ok sv =>
      .ok (.obj [("id", .str (hexUpper r.id)),
                 ("friendlyName", .str r.friendlyName),
                 ("status", sv),
                 ("since", .tim r.since)])

/-- The anonymous temporary struct allocated by `Resource.UnmarshalJSON`:
`Id string`, `FriendlyName string`, `Status Status`, `Since time.Time`, all
zero-initialised. -/
structure TmpRes where
  id : String
  friendlyName : String
  status : Status
  since : Time
deriving DecidableEq

/-- ASCII-case-insensitive key fold used by `encoding/json` to match object
keys against struct field names. -/
def foldChars (s : String) : List Char := s.data.map Char.toLower

/-- Record a soft `encoding/json` error: the first one wins and decoding
continues. -/
def saveErr (e : Option Err) (e2 : Err) : Option Err :=
  match e with
  | some e0 => some e0
  | none => some e2

/-- `encoding/json` object decoding into the temporary struct of
`Resource.UnmarshalJSON`.  Keys match field names case-insensitively;
unknown keys are skipped; a type mismatch on the two plain string fields is
recorded but decoding continues; an error from a field's own `UnmarshalJSON`
(`Status`, `time.Time`) aborts immediately. -/
def decodeFields : List (String × Jval) → TmpRes → Option Err → Except Err TmpRes
  | [], t, none => .ok t
  | [], _, some e => .error e
  | (k, v) :: rest, t, e =>
      if foldChars k = foldChars "Id" then
        match v with
        | .str s => decodeFields rest { t with id := s } e
        | _ => decodeFields rest t (saveErr e .jsonError)
      else if foldChars k = foldChars "FriendlyName" then
        match v with
        | .str s => decodeFields rest { t with friendlyName := s } e
        | _ => decodeFields rest t (saveErr e .jsonError)
      else if foldChars k = foldChars "Status" then
        match Status.UnmarshalJSON t.status v with
        | (s, none) => decodeFields rest { t with status := s } e
        | (_, some e2) => .error e2
      else if foldChars k = foldChars "Since" then
        match v with
        | .tim tm => decodeFields rest { t with since := tm } e
        | _ => .error .jsonError
      else
        decodeFields rest t e

/-- `json.Unmarshal(raw, tmp)` for the temporary struct: the top-level value
must be an object. -/
def jsonUnmarshalTmp (j : Jval) : Except Err TmpRes :=
  match j with
  | .obj fs => decodeFields fs ⟨"", "", Free, zeroTime⟩ none
  | _ => .error .jsonError

/-- `func (r *Resource) UnmarshalJSON(raw []byte) error`: decode into the
temporary struct; on failure return the error with the receiver untouched.
Otherwise copy `FriendlyName`, `Status`, `Since` to the receiver, replace an
empty `Id` by `"0"`, hex-parse it, and either return the parse error (with
`Id` untouched) or store the parsed id.  The result pairs the final receiver
value with the returned error. -/
def Resource.UnmarshalJSON (r : Resource) (j : Jval) : Resource × Option Err :=
  match jsonUnmarshalTmp j with
  | .error e => (r, some e)
  | .ok t =>
      let r1 : Resource :=
        { r with friendlyName := t.friendlyName, status := t.status, since := t.since }
      let tid := if t.id = "" then "0" else t.id
      match ParseUint tid with
      | .error e => (r1, some e)
      | .ok n => ({ r1 with id := n }, none)

lemma hexDigitsAux_append : ∀ (fuel n : Nat) (acc : List Char),
    hexDigitsAux fuel n acc = hexDigitsAux fuel n [] ++ acc := by
  intro fuel
  induction fuel with
  | zero => intro n acc; simp [hexDigitsAux]
  | succ f ih =>
      intro n acc
      by_cases h : n < 16
      · simp [hexDigitsAux, h]
      · simp only [hexDigitsAux, if_neg h]
        rw [ih (n / 16) (hexDigit (n % 16) :: acc), ih (n / 16) [hexDigit (n % 16)]]
        simp

lemma hexDigitsAux_succ (fuel n : Nat) (acc : List Char) :
    hexDigitsAux (fuel + 1) n acc =
      if n < 16 then hexDigit n :: acc
      else hexDigitsAux fuel (n / 16) (hexDigit (n % 16) :: acc) := rfl

lemma lt_pow16 (n : Nat) : n < 16 ^ n :=
  lt_of_lt_of_le (Nat.lt_two_pow n) (Nat.pow_le_pow_left (by omega) n)

lemma hexDigitsAux_fuel : ∀ (f1 f2 n : Nat) (acc : List Char),
    n < 16 ^ f1 → n < 16 ^ f2 →
    hexDigitsAux (f1 + 1) n acc = hexDigitsAux (f2 + 1) n acc := by
  intro f1
  induction f1 with
  | zero =>
      intro f2 n acc h1 h2
      have h1' : n < 1 := by simpa using h1
      have hn : n < 16 := by omega
      cases f2 with
      | zero => rfl
      | succ b =>
          conv_lhs => rw [hexDigitsAux_succ]
          conv_rhs => rw [hexDigitsAux_succ]
          rw [if_pos hn, if_pos hn]
  | succ a ih =>
      intro f2 n acc h1 h2
      by_cases hn : n < 16
      · cases f2 with
        | zero =>
            conv_lhs => rw [hexDigitsAux_succ]
            conv_rhs => rw [hexDigitsAux_succ]
            rw [if_pos hn, if_pos hn]
        | succ b =>
            conv_lhs => rw [hexDigitsAux_succ]
            conv_rhs => rw [hexDigitsAux_succ]
            rw [if_pos hn, if_pos hn]
      · cases f2 with
        | zero =>
            exfalso
            have : n < 1 := by simpa using h2
            omega
        | succ b =>
            conv_lhs => rw [hexDigitsAux_succ]
            conv_rhs => rw [hexDigitsAux_succ]
            rw [if_neg hn, if_neg hn]
            have hdiva : n / 16 < 16 ^ a := by
              rw [Nat.div_lt_iff_lt_mul (by omega)]
              calc n < 16 ^ (a + 1) := h1
                _ = 16 ^ a * 16 := by rw [pow_succ]
            have hdivb : n / 16 < 16 ^ b := by
              rw [Nat.div_lt_iff_lt_mul (by omega)]
              calc n < 16 ^ (b + 1) := h2
                _ = 16 ^ b * 16 := by rw [pow_succ]
            exact ih b (n / 16) (hexDigit (n % 16) :: acc) hdiva hdivb

lemma hexDigits_lt {n : Nat} (h : n < 16) : hexDigits n = [hexDigit n] := by
  simp [hexDigits, hexDigitsAux, h]

lemma hexDigits_ge {n : Nat} (h : 16 ≤ n) :
    hexDigits n = hexDigits (n / 16) ++ [hexDigit (n % 16)] := by
  have hn1 : n = (n - 1) + 1 := by omega
  have hf1 : n / 16 < 16 ^ (n - 1) := by
    have h2 : n ≤ 2 ^ (n - 1) := by
      have := Nat.lt_two_pow (n - 1)
      have hle : 2 ^ (n - 1) ≥ n := by
        have hbig : n - 1 < 2 ^ (n - 1) := Nat.lt_two_pow (n - 1)
        have hmono : 2 ^ 4 ≤ 2 ^ (n - 1) := Nat.pow_le_pow_right (by omega) (by omega)
        omega
      exact hle
    have h3 : (2 : Nat) ^ (n - 1) ≤ 16 ^ (n - 1) := Nat.pow_le_pow_left (by omega) _
    have h4 : n / 16 < n := Nat.div_lt_self (by omega) (by omega)
    omega
  have hf2 : n / 16 < 16 ^ (n / 16) := lt_pow16 _
  calc hexDigits n = hexDigitsAux (n + 1) n [] := rfl
    _ = hexDigitsAux n (n / 16) [hexDigit (n % 16)] := by
        rw [hexDigitsAux_succ, if_neg (by omega)]
    _ = hexDigitsAux ((n - 1) + 1) (n / 16) [hexDigit (n % 16)] := by rw [← hn1]
    _ = hexDigitsAux ((n / 16) + 1) (n / 16) [hexDigit (n % 16)] :=
        hexDigitsAux_fuel (n - 1) (n / 16) (n / 16) _ hf1 hf2
    _ = hexDigitsAux ((n / 16) + 1) (n / 16) [] ++ [hexDigit (n % 16)] :=
        hexDigitsAux_append _ _ _
    _ = hexDigits (n / 16) ++ [hexDigit (n % 16)] := rfl

lemma hexDigits_ne_nil (n : Nat) : hexDigits n ≠ [] := by
  by_cases h : n < 16
  · rw [hexDigits_lt h]; simp
  · rw [hexDigits_ge (by omega)]; simp

lemma hexVal_hexDigit : ∀ d : Nat, d < 16 → hexVal (hexDigit d) = some d := by
  decide

lemma parseUintGo_hexDigits (n : Nat) : ∀ (a : Nat) (rest : List Char),
    a * 16 ^ (hexDigits n).length + n < 2 ^ 64 →
    parseUintGo (hexDigits n ++ rest) a =
      parseUintGo rest (a * 16 ^ (hexDigits n).length + n) := by
  induction n using Nat.strong_induction_on with
  | _ n ih =>
    intro a rest h
    by_cases h16 : n < 16
    · rw [hexDigits_lt h16] at h ⊢
      simp only [List.length_cons, List.length_nil, pow_one, List.cons_append,
        List.nil_append, zero_add] at h ⊢
      simp only [parseUintGo, hexVal_hexDigit n h16]
      rw [if_pos h]
    · push_neg at h16
      rw [hexDigits_ge h16] at h ⊢
      set L := (hexDigits (n / 16)).length with hL
      have hlen : (hexDigits (n / 16) ++ [hexDigit (n % 16)]).length = L + 1 := by
        simp [hL]
      rw [hlen] at h
      have hpow : (16 : Nat) ^ (L + 1) = 16 ^ L * 16 := pow_succ 16 L
      have hb : a * 16 ^ (L + 1) + n = (a * 16 ^ L + n / 16) * 16 + n % 16 := by
        rw [hpow]
        have : n = (n / 16) * 16 + n % 16 := by omega
        ring_nf
        omega
      have hdiv : n / 16 < n := Nat.div_lt_self (by omega) (by omega)
      have hbound1 : a * 16 ^ L + n / 16 < 2 ^ 64 := by
        have h' : (a * 16 ^ L + n / 16) * 16 + n % 16 < 2 ^ 64 := by rw [← hb]; exact h
        omega
      rw [List.append_assoc, List.singleton_append]
      have hstep := ih (n / 16) hdiv a (hexDigit (n % 16) :: rest) hbound1
      rw [← hL] at hstep
      rw [hstep]
      simp only [parseUintGo, hexVal_hexDigit (n % 16) (by omega)]
      rw [if_pos (by rw [← hb]; exact h)]
      rw [hlen, hb]

lemma ParseUint_mk (l : List Char) (hl : l ≠ []) :
    ParseUint (String.mk l) = parseUintGo l 0 := by
  cases l with
  | nil => exact absurd rfl hl
  | cons c cs => rfl

lemma ParseUint_hexUpper (n : Nat) (h : n < 2 ^ 64) : ParseUint (hexUpper n) = .ok n := by
  have key := parseUintGo_hexDigits n 0 [] (by simpa using h)
  simp only [zero_mul, zero_add, List.append_nil, parseUintGo] at key
  rw [show hexUpper n = String.mk (hexDigits n) from rfl,
    ParseUint_mk (hexDigits n) (hexDigits_ne_nil n)]
  exact key

lemma parseUintGo_err : ∀ (cs : List Char) (a : Nat),
    (∃ c ∈ cs, hexVal c = none) →
    ∃ e, parseUintGo cs a = .error e ∧ e.isParse = true := by
  intro cs
  induction cs with
  | nil => intro a hbad; simp at hbad
  | cons c cs ih =>
      intro a hbad
      cases hv : hexVal c with
      | none => exact ⟨.parseSyntax, by simp [parseUintGo, hv], rfl⟩
      | some d =>
          obtain ⟨c0, hc0mem, hc0⟩ := hbad
          have hmem : c0 ∈ cs := by
            rcases List.mem_cons.mp hc0mem with h1 | h1
            · rw [h1] at hc0; rw [hc0] at hv; cases hv
            · exact h1
          by_cases hcond : a * 16 + d < 2 ^ 64
          · obtain ⟨e, he1, he2⟩ := ih (a * 16 + d) ⟨c0, hmem, hc0⟩
            refine ⟨e, ?_, he2⟩
            simp only [parseUintGo, hv]
            rw [if_pos hcond]
            exact he1
          · refine ⟨.parseRange, ?_, rfl⟩
            simp only [parseUintGo, hv]
            rw [if_neg hcond]

lemma String_data_ne_nil {s : String} (h : s ≠ "") : s.data ≠ [] := by
  intro h0
  apply h
  have hs : s = String.mk s.data := rfl
  rw [hs, h0]

lemma ParseUint_err (s : String) (hne : s ≠ "")
    (hbad : ∃ c ∈ s.data, hexVal c = none) :
    ∃ e, ParseUint s = .error e ∧ e.isParse = true := by
  obtain ⟨e, he1, he2⟩ := parseUintGo_err s.data 0 hbad
  refine ⟨e, ?_, he2⟩
  have hs : ParseUint s = parseUintGo s.data 0 :=
    ParseUint_mk s.data (String_data_ne_nil hne)
  rw [hs]
  exact he1

lemma hexUpper_ne_empty (n : Nat) : hexUpper n ≠ "" := by
  intro h
  apply hexDigits_ne_nil n
  have h2 := congrArg (fun s => s.data) h
  simpa [hexUpper] using h2

lemma Status_unmarshal_num (s0 : Status) (n : Int) :
    Status.UnmarshalJSON s0 (.num n) =
      if 0 ≤ n ∧ n < 256 then
        if n.toNat ≤ 2 then (n.toNat, none) else (Free, some .outOfRange)
      else (s0, some .jsonError) := rfl

lemma Status_unmarshal_inRange (s0 : Status) (v : Nat) (hv : v ≤ 2) :
    Status.UnmarshalJSON s0 (.num (v : Int)) = (v, none) := by
  rw [Status_unmarshal_num, if_pos (by constructor <;> omega)]
  simp only [Int.toNat_natCast]
  rw [if_pos hv]

lemma Status_unmarshal_outOfRange (s0 : Status) (v : Nat) (h2 : 2 < v) (h256 : v < 256) :
    Status.UnmarshalJSON s0 (.num (v : Int)) = (Free, some .outOfRange) := by
  rw [Status_unmarshal_num, if_pos (by constructor <;> omega)]
  simp only [Int.toNat_natCast]
  rw [if_neg (by omega)]

lemma Status_unmarshal_badNum (s0 : Status) (n : Int) (h : n < 0 ∨ 256 ≤ n) :
    Status.UnmarshalJSON s0 (.num n) = (s0, some .jsonError) := by
  rw [Status_unmarshal_num, if_neg (by omega)]

lemma Status_marshal_ok (v : Status) (hv : v ≤ 2) :
    Status.MarshalJSON v = .ok (.num (v : Int)) := by
  unfold Status.MarshalJSON
  rw [if_pos (show Status.inRange v from hv)]

lemma decode_nil (t : TmpRes) : decodeFields [] t none = .ok t := rfl

lemma decode_id (s : String) (rest : List (String × Jval)) (t : TmpRes) (e : Option Err) :
    decodeFields (("id", .str s) :: rest) t e = decodeFields rest { t with id := s } e := rfl

lemma decode_friendlyName (s : String) (rest : List (String × Jval)) (t : TmpRes)
    (e : Option Err) :
    decodeFields (("friendlyName", .str s) :: rest) t e =
      decodeFields rest { t with friendlyName := s } e := rfl

lemma decode_status (v : Jval) (rest : List (String × Jval)) (t : TmpRes) (e : Option Err) :
    decodeFields (("status", v) :: rest) t e =
      match Status.UnmarshalJSON t.status v with
      | (s, none) => decodeFields rest { t with status := s } e
      | (_, some e2) => .error e2 := rfl

lemma decode_since (tm : Time) (rest : List (String × Jval)) (t : TmpRes) (e : Option Err) :
    decodeFields (("since", .tim tm) :: rest) t e =
      decodeFields rest { t with since := tm } e := rfl

lemma decode_status_ok (v : Jval) (rest : List (String × Jval)) (t : TmpRes) (e : Option Err)
    (s : Status) (h : Status.UnmarshalJSON t.status v = (s, none)) :
    decodeFields (("status", v) :: rest) t e = decodeFields rest { t with status := s } e := by
  rw [decode_status, h]

lemma decode_status_err (v : Jval) (rest : List (String × Jval)) (t : TmpRes) (e : Option Err)
    (s : Status) (e2 : Err) (h : Status.UnmarshalJSON t.status v = (s, some e2)) :
    decodeFields (("status", v) :: rest) t e = .error e2 := by
  rw [decode_status, h]

lemma Resource_unmarshal_eq (r : Resource) (j : Jval) :
    Resource.UnmarshalJSON r j =
      match jsonUnmarshalTmp j with
      | .error e => (r, some e)
      | .ok t =>
          match ParseUint (if t.id = "" then "0" else t.id) with
          | .error e =>
              (⟨r.id, t.friendlyName, t.status, t.since⟩, some e)
          | .ok n =>
              (⟨n, t.friendlyName, t.status, t.since⟩, none) := rfl

lemma marshal_ok (r : Resource) (hst : r.status ≤ 2) :
    Resource.MarshalJSON r = .ok (.obj [("id", .str (hexUpper r.id)),
      ("friendlyName", .str r.friendlyName), ("status", .num (r.status : Int)),
      ("since", .tim r.since)]) := by
  unfold Resource.MarshalJSON
  rw [Status_marshal_ok r.status hst]

lemma tmp_canonical (ids name : String) (st : Nat) (tm : Time) (hst : st ≤ 2) :
    jsonUnmarshalTmp (.obj [("id", .str ids), ("friendlyName", .str name),
      ("status", .num (st : Int)), ("since", .tim tm)]) = .ok ⟨ids, name, st, tm⟩ := by
  show decodeFields [("id", .str ids), ("friendlyName", .str name),
    ("status", .num (st : Int)), ("since", .tim tm)] ⟨"", "", Free, zeroTime⟩ none =
    .ok ⟨ids, name, st, tm⟩
  rw [decode_id, decode_friendlyName,
    decode_status_ok _ _ _ _ st (Status_unmarshal_inRange _ st hst), decode_since, decode_nil]

lemma unmarshal_canonical_ok (r0 : Resource) (ids name : String) (st : Nat) (tm : Time)
    (n : Nat) (hst : st ≤ 2) (hne : ids ≠ "") (hp : ParseUint ids = .ok n) :
    Resource.UnmarshalJSON r0 (.obj [("id", .str ids), ("friendlyName", .str name),
      ("status", .num (st : Int)), ("since", .tim tm)]) = (⟨n, name, st, tm⟩, none) := by
  rw [Resource_unmarshal_eq, tmp_canonical ids name st tm hst]
  show (match ParseUint (if ids = "" then "0" else ids) with
    | .error e => ((⟨r0.id, name, st, tm⟩ : Resource), some e)
    | .ok n2 => ((⟨n2, name, st, tm⟩ : Resource), none)) = ((⟨n, name, st, tm⟩ : Resource), none)
  rw [if_neg hne, hp]

lemma unmarshal_canonical_err (r0 : Resource) (ids name : String) (st : Nat) (tm : Time)
    (e : Err) (hst : st ≤ 2) (hne : ids ≠ "") (hp : ParseUint ids = .error e) :
    Resource.UnmarshalJSON r0 (.obj [("id", .str ids), ("friendlyName", .str name),
      ("status", .num (st : Int)), ("since", .tim tm)]) =
      (⟨r0.id, name, st, tm⟩, some e) := by
  rw [Resource_unmarshal_eq, tmp_canonical ids name st tm hst]
  show (match ParseUint (if ids = "" then "0" else ids) with
    | .error e => ((⟨r0.id, name, st, tm⟩ : Resource), some e)
    | .ok n2 => ((⟨n2, name, st, tm⟩ : Resource), none)) = ((⟨r0.id, name, st, tm⟩ : Resource), some e)
  rw [if_neg hne, hp]

lemma hexDigit_class : ∀ d : Nat, d < 16 →
    (hexDigit d).isDigit = true ∨ ('A' ≤ hexDigit d ∧ hexDigit d ≤ 'F') := by decide

lemma hexDigits_class (n : Nat) : ∀ c ∈ hexDigits n,
    c.isDigit = true ∨ ('A' ≤ c ∧ c ≤ 'F') := by
  induction n using Nat.strong_induction_on with
  | _ n ih =>
    by_cases h : n < 16
    · rw [hexDigits_lt h]
      intro c hc
      simp only [List.mem_singleton] at hc
      subst hc
      exact hexDigit_class n h
    · push_neg at h
      rw [hexDigits_ge h]
      intro c hc
      rcases List.mem_append.mp hc with h1 | h1
      · exact ih (n / 16) (Nat.div_lt_self (by omega) (by omega)) c h1
      · simp only [List.mem_singleton] at h1
        subst h1
        exact hexDigit_class (n % 16) (by omega)

lemma hexDigit_ne_zero : ∀ d : Nat, d < 16 → d ≠ 0 → hexDigit d ≠ '0' := by decide

lemma hexDigits_head_ne_zero (n : Nat) (h0 : n ≠ 0) : (hexDigits n).head? ≠ some '0' := by
  induction n using Nat.strong_induction_on with
  | _ n ih =>
    by_cases h : n < 16
    · intro hc
      rw [hexDigits_lt h] at hc
      simp only [List.head?_cons, Option.some.injEq] at hc
      exact hexDigit_ne_zero n h h0 hc
    · push_neg at h
      intro hc
      rw [hexDigits_ge h] at hc
      obtain ⟨c, cs, hcs⟩ : ∃ c cs, hexDigits (n / 16) = c :: cs := by
        cases hh : hexDigits (n / 16) with
        | nil => exact absurd hh (hexDigits_ne_nil _)
        | cons c cs => exact ⟨c, cs, rfl⟩
      rw [hcs] at hc
      simp only [List.cons_append, List.head?_cons, Option.some.injEq] at hc
      have hdiv0 : n / 16 ≠ 0 := by
        have h1 : 16 / 16 ≤ n / 16 := Nat.div_le_div_right h
        simp at h1
        omega
      have hhead := ih (n / 16) (Nat.div_lt_self (by omega) (by omega)) hdiv0
      rw [hcs] at hhead
      exact hhead (congrArg some hc)

example : hexUpper 0x0123456789ABCDEF = "123456789ABCDEF" := by decide
example : hexUpper16 0x0123456789ABCDEF = "0123456789ABCDEF" := by decide
example : hexUpper 0 = "0" := by decide
example : fmtRFC3339 ⟨2006, 1, 2, 15, 4, 5, 0⟩ = "2006-01-02T15:04:05Z" := by decide
example : ParseUint "zz" = .error .parseSyntax := by decide
example : ParseUint "0" = .ok 0 := by decide
example : Status.String 5 = "0" := by decide
example : Status.Pretty 2 = "Occupied" := by decide
example :
    Resource.UnmarshalJSON ⟨0, "", 1, zeroTime⟩ (.obj [("status", .num 5)]) =
      (⟨0, "", 1, zeroTime⟩, some .outOfRange) := by
  decide

/-- C1: for every Resource whose status is in the valid range (and whose id is a
uint64 value), unmarshalling the marshalled structured form yields a Resource
equal to the original in all four fields, whatever receiver it is decoded
into. -/
theorem claim_C1 (r r0 : Resource) (hid : r.id < 2 ^ 64) (hst : r.status ≤ 2) :
    ∃ j, Resource.MarshalJSON r = .ok j ∧ Resource.UnmarshalJSON r0 j = (r, none) := by
  obtain ⟨i, nm, st, tm⟩ := r
  exact ⟨_, marshal_ok ⟨i, nm, st, tm⟩ hst,
    unmarshal_canonical_ok r0 (hexUpper i) nm st tm i hst (hexUpper_ne_empty i)
      (ParseUint_hexUpper i hid)⟩

/-- Witness for C1 at a concrete Resource and receiver. -/
theorem claim_C1_witness :
    ∃ j, Resource.MarshalJSON
        ⟨0x0123456789ABCDEF, "My Resource", 1, ⟨2006, 1, 2, 15, 4, 5, 0⟩⟩ = .ok j ∧
      Resource.UnmarshalJSON ⟨5, "x", 2, ⟨1999, 12, 31, 23, 59, 59, 1⟩⟩ j =
        (⟨0x0123456789ABCDEF, "My Resource", 1, ⟨2006, 1, 2, 15, 4, 5, 0⟩⟩, none) :=
  claim_C1 _ _ (by decide) (by decide)

/-- C2 counterexample: `Resource.MarshalJSON` renders the id
0x0123456789ABCDEF as the 15-character string "123456789ABCDEF", not as a
fixed-width 16-digit zero-padded string. -/
theorem counterexample_C2 :
    Resource.MarshalJSON ⟨0x0123456789ABCDEF, "My Resource", Busy, ⟨2006, 1, 2, 15, 4, 5, 0⟩⟩ =
      .ok (.obj [("id", .str "123456789ABCDEF"), ("friendlyName", .str "My Resource"),
        ("status", .num 1), ("since", .tim ⟨2006, 1, 2, 15, 4, 5, 0⟩)]) ∧
    ("123456789ABCDEF" : String).length = 15 ∧ ("123456789ABCDEF" : String).length ≠ 16 := by
  exact ⟨rfl, by decide, by decide⟩

/-- C2 (amended): `Resource.MarshalJSON` emits the id as an upper-case
hexadecimal string with no "0x" prefix and no zero padding (minimal width,
leading digit nonzero unless the id is 0), and the string parses back to the
id. -/
theorem claim_C2 (r : Resource) (hst : r.status ≤ 2) (hid : r.id < 2 ^ 64) :
    ∃ fs, Resource.MarshalJSON r = .ok (.obj fs) ∧
      fs.head? = some ("id", .str (hexUpper r.id)) ∧
      hexUpper r.id ≠ "" ∧
      (∀ c ∈ (hexUpper r.id).data, c.isDigit = true ∨ ('A' ≤ c ∧ c ≤ 'F')) ∧
      (r.id ≠ 0 → (hexUpper r.id).data.head? ≠ some '0') ∧
      ParseUint (hexUpper r.id) = .ok r.id := by
  refine ⟨_, marshal_ok r hst, rfl, hexUpper_ne_empty r.id, ?_, ?_,
    ParseUint_hexUpper r.id hid⟩
  · intro c hc
    exact hexDigits_class r.id c hc
  · intro h0
    exact hexDigits_head_ne_zero r.id h0

/-- Witness for C2 at a concrete Resource. -/
theorem claim_C2_witness :
    ∃ fs, Resource.MarshalJSON ⟨0, "", 0, zeroTime⟩ = .ok (.obj fs) ∧
      fs.head? = some ("id", .str (hexUpper 0)) ∧
      hexUpper 0 ≠ "" ∧
      (∀ c ∈ (hexUpper 0).data, c.isDigit = true ∨ ('A' ≤ c ∧ c ≤ 'F')) ∧
      ((0 : Nat) ≠ 0 → (hexUpper 0).data.head? ≠ some '0') ∧
      ParseUint (hexUpper 0) = .ok 0 :=
  claim_C2 ⟨0, "", 0, zeroTime⟩ (by decide) (by decide)

/-- C3 counterexample: decoding an object with out-of-range status 5 into a
receiver whose status is Busy returns the out-of-range error, but the
receiver's status is still Busy, not Free: the reset-to-Free happens only on
the discarded temporary struct. -/
theorem counterexample_C3 :
    Resource.UnmarshalJSON ⟨0, "", Busy, zeroTime⟩ (.obj [("status", .num 5)]) =
      (⟨0, "", Busy, zeroTime⟩, some .outOfRange) ∧ Busy ≠ Free := by
  exact ⟨by decide, by decide⟩

/-- C3 (amended): on an input whose status field is present but out of range,
`Resource.UnmarshalJSON` fails with the out-of-range error and the receiver
Resource is left entirely unchanged (in particular its status is not reset to
Free). -/
theorem claim_C3 (r0 : Resource) (v : Nat) (h2 : 2 < v) (h256 : v < 256) :
    Resource.UnmarshalJSON r0 (.obj [("status", .num (v : Int))]) =
      (r0, some .outOfRange) := by
  rw [Resource_unmarshal_eq]
  have htmp : jsonUnmarshalTmp (.obj [("status", .num (v : Int))]) = .error .outOfRange := by
    show decodeFields [("status", .num (v : Int))] ⟨"", "", Free, zeroTime⟩ none =
      .error .outOfRange
    rw [decode_status_err _ _ _ _ Free .outOfRange (Status_unmarshal_outOfRange _ v h2 h256)]
  rw [htmp]

/-- Witness for C3 (amended) at a concrete receiver and status value. -/
theorem claim_C3_witness :
    Resource.UnmarshalJSON ⟨1, "a", 2, zeroTime⟩ (.obj [("status", .num ((5 : Nat) : Int))]) =
      (⟨1, "a", 2, zeroTime⟩, some .outOfRange) :=
  claim_C3 ⟨1, "a", 2, zeroTime⟩ 5 (by decide) (by decide)

/-- C4: marshalling a Resource whose status is out of range fails with the
out-of-range error and produces no output. -/
theorem claim_C4 (r : Resource) (h : ¬ Status.inRange r.status) :
    Resource.MarshalJSON r = .error .outOfRange := by
  unfold Resource.MarshalJSON Status.MarshalJSON
  rw [if_neg h]

/-- Witness for C4 at a concrete out-of-range Resource. -/
theorem claim_C4_witness : Resource.MarshalJSON ⟨0, "", 3, zeroTime⟩ = .error .outOfRange :=
  claim_C4 ⟨0, "", 3, zeroTime⟩ (by decide)

/-- C5: absent fields decode to the zero values (empty name, Free status, zero
timestamp); an absent or empty id field is treated as "0" and yields id 0
without error; a present id field containing a non-hex character makes the
decode fail with a parse error. -/
theorem claim_C5 (r0 : Resource) (s : String) :
    Resource.UnmarshalJSON r0 (.obj []) = (⟨0, "", Free, zeroTime⟩, none) ∧
    Resource.UnmarshalJSON r0 (.obj [("id", .str "")]) = (⟨0, "", Free, zeroTime⟩, none) ∧
    (s ≠ "" → (∃ c ∈ s.data, hexVal c = none) →
      ∃ e, (Resource.UnmarshalJSON r0 (.obj [("id", .str s)])).2 = some e ∧
        e.isParse = true) := by
  refine ⟨rfl, rfl, ?_⟩
  intro hne hbad
  obtain ⟨e, hp, hpp⟩ := ParseUint_err s hne hbad
  refine ⟨e, ?_, hpp⟩
  rw [Resource_unmarshal_eq]
  have htmp : jsonUnmarshalTmp (.obj [("id", .str s)]) = .ok ⟨s, "", Free, zeroTime⟩ := by
    show decodeFields [("id", .str s)] ⟨"", "", Free, zeroTime⟩ none =
      .ok ⟨s, "", Free, zeroTime⟩
    rw [decode_id, decode_nil]
  rw [htmp]
  show (match ParseUint (if s = "" then "0" else s) with
    | .error e2 => ((⟨r0.id, "", Free, zeroTime⟩ : Resource), some e2)
    | .ok n2 => ((⟨n2, "", Free, zeroTime⟩ : Resource), none)).2 = some e
  rw [if_neg hne, hp]

/-- Witness for C5's parse-error part at a concrete receiver and id "zz". -/
theorem claim_C5_witness :
    ∃ e, (Resource.UnmarshalJSON ⟨7, "w", 2, ⟨2020, 6, 7, 8, 9, 10, 11⟩⟩
      (.obj [("id", .str "zz")])).2 = some e ∧ e.isParse = true :=
  (claim_C5 ⟨7, "w", 2, ⟨2020, 6, 7, 8, 9, 10, 11⟩⟩ "zz").2.2 (by decide)
    ⟨'z', by decide, by decide⟩

/-- C6: Status decode from a number: values 0..2 decode to themselves (for any
receiver) and round-trip through marshal then unmarshal; values 3..255 fail
with the out-of-range error and leave the receiver equal to Free. -/
theorem claim_C6 (v : Nat) (hv : v < 256) :
    (v ≤ 2 → ∀ s0 : Status, Status.UnmarshalJSON s0 (.num (v : Int)) = (v, none) ∧
      ∃ j, Status.MarshalJSON v = .ok j ∧ Status.UnmarshalJSON s0 j = (v, none)) ∧
    (2 < v → ∀ s0 : Status,
      Status.UnmarshalJSON s0 (.num (v : Int)) = (Free, some .outOfRange)) := by
  constructor
  · intro h2 s0
    exact ⟨Status_unmarshal_inRange s0 v h2,
      ⟨.num (v : Int), Status_marshal_ok v h2, Status_unmarshal_inRange s0 v h2⟩⟩
  · intro h2 s0
    exact Status_unmarshal_outOfRange s0 v h2 hv

/-- Witness for C6: both an in-range and an out-of-range decode at concrete
inputs. -/
theorem claim_C6_witness :
    Status.UnmarshalJSON 9 (.num ((1 : Nat) : Int)) = (1, none) ∧
    Status.UnmarshalJSON 9 (.num ((200 : Nat) : Int)) = (Free, some .outOfRange) :=
  ⟨((claim_C6 1 (by decide)).1 (by decide) 9).1, (claim_C6 200 (by decide)).2 (by decide) 9⟩

/-- C7: the line-text rendering is `<since RFC-3339> <status compact>
<id %016X> <friendlyName>`, space-separated, and the documented example
renders exactly as claimed. -/
theorem claim_C7 :
    (∀ r : Resource, Resource.String r =
      fmtRFC3339 r.since ++ " " ++ Status.String r.status ++ " " ++
        hexUpper16 r.id ++ " " ++ r.friendlyName) ∧
    Resource.String ⟨0x0123456789ABCDEF, "My Resource", Busy, ⟨2006, 1, 2, 15, 4, 5, 0⟩⟩ =
      "2006-01-02T15:04:05Z 1 0123456789ABCDEF My Resource" :=
  ⟨fun _ => rfl, by decide⟩

/-- C8: over all 256 possible uint8 bit patterns, the compact renderer yields
"0"/"1"/"2" in range and "0" out of range, and the pretty renderer yields
"Free"/"Busy"/"Occupied" in range and "Free" out of range; neither ever
fails. -/
theorem claim_C8 (s : Status) (hs : s < 256) :
    Status.String s =
      (if s = 0 then "0" else if s = 1 then "1" else if s = 2 then "2" else "0") ∧
    Status.Pretty s =
      (if s = 0 then "Free" else if s = 1 then "Busy"
        else if s = 2 then "Occupied" else "Free") := by
  rcases s with _ | _ | _ | n
  · exact ⟨by decide, by decide⟩
  · exact ⟨by decide, by decide⟩
  · exact ⟨by decide, by decide⟩
  · constructor
    · rw [if_neg (by omega : ¬ (n + 3 = 0)), if_neg (by omega : ¬ (n + 3 = 1)),
        if_neg (by omega : ¬ (n + 3 = 2))]
      show Status.String (n + 3) = "0"
      unfold Status.String Status.forceRange
      rw [if_neg (show ¬ Status.inRange (n + 3) by show ¬ (n + 3 ≤ 2); omega)]
      rfl
    · rw [if_neg (by omega : ¬ (n + 3 = 0)), if_neg (by omega : ¬ (n + 3 = 1)),
        if_neg (by omega : ¬ (n + 3 = 2))]
      show Status.Pretty (n + 3) = "Free"
      unfold Status.Pretty Status.forceRange
      rw [if_neg (show ¬ Status.inRange (n + 3) by show ¬ (n + 3 ≤ 2); omega)]
      rfl

/-- Witness for C8 at the out-of-range bit pattern 200. -/
theorem claim_C8_witness :
    Status.String 200 =
      (if (200 : Nat) = 0 then "0" else if (200 : Nat) = 1 then "1"
        else if (200 : Nat) = 2 then "2" else "0") ∧
    Status.Pretty 200 =
      (if (200 : Nat) = 0 then "Free" else if (200 : Nat) = 1 then "Busy"
        else if (200 : Nat) = 2 then "Occupied" else "Free") :=
  claim_C8 200 (by decide)

/-- C9: on a well-formed input whose name, status and since decode fine but
whose id is present and not valid hex, `Resource.UnmarshalJSON` errors with a
parse error AND the receiver's friendlyName, status and since have already
been overwritten with the decoded values; only the id keeps its old value. -/
theorem claim_C9 (r0 : Resource) (name s : String) (st : Nat) (tm : Time)
    (hst : st ≤ 2) (hne : s ≠ "") (hbad : ∃ c ∈ s.data, hexVal c = none) :
    ∃ e, Resource.UnmarshalJSON r0 (.obj [("id", .str s), ("friendlyName", .str name),
        ("status", .num (st : Int)), ("since", .tim tm)]) =
      (⟨r0.id, name, st, tm⟩, some e) ∧ e.isParse = true := by
  obtain ⟨e, hp, hpp⟩ := ParseUint_err s hne hbad
  exact ⟨e, unmarshal_canonical_err r0 s name st tm e hst hne hp, hpp⟩

/-- Witness for C9 at a concrete receiver and input. -/
theorem claim_C9_witness :
    ∃ e, Resource.UnmarshalJSON ⟨9, "old", 0, zeroTime⟩
        (.obj [("id", .str "xy"), ("friendlyName", .str "New"),
          ("status", .num ((2 : Nat) : Int)), ("since", .tim ⟨2021, 2, 3, 4, 5, 6, 7⟩)]) =
      (⟨9, "New", 2, ⟨2021, 2, 3, 4, 5, 6, 7⟩⟩, some e) ∧ e.isParse = true :=
  claim_C9 ⟨9, "old", 0, zeroTime⟩ "New" "xy" 2 ⟨2021, 2, 3, 4, 5, 6, 7⟩ (by decide)
    (by decide) ⟨'x', by decide, by decide⟩

/-- C10: a numeric status input that does not fit in a uint8 (negative or at
least 256) makes `Status.UnmarshalJSON` fail with the JSON unmarshalling
error, which is distinct from the out-of-range error, and the receiver is
left unchanged. -/
theorem claim_C10 (s0 : Status) (n : Int) (h : n < 0 ∨ 256 ≤ n) :
    Status.UnmarshalJSON s0 (.num n) = (s0, some .jsonError) ∧
      Err.jsonError ≠ Err.outOfRange :=
  ⟨Status_unmarshal_badNum s0 n h, by decide⟩

/-- Witness for C10 at receiver 3 and the unrepresentable input 256. -/
theorem claim_C10_witness :
    Status.UnmarshalJSON 3 (.num 256) = (3, some .jsonError) ∧
      Err.jsonError ≠ Err.outOfRange :=
  claim_C10 3 256 (by omega)
